import Mathlib

/-!
Verification of the OAuth proxy core of `notion-mcp-remote`.

We shallowly embed the two core modules:

* `src/auth/storage.py` — `TokenStore`, an encrypted JSON-file store holding
  five string-keyed collections, with lazy TTL eviction on lookup, an atomic
  rotation primitive, and cascading pair deletion.  Every mutating method
  writes the whole snapshot to disk (`_save`); we model the sequence of
  persisted snapshots as a `journal` so that "one atomic store mutation"
  is expressible as "the journal grows by exactly one snapshot".
* `src/auth/provider.py` — `NotionOAuthProvider`, the OAuth
  authorization-server proxy built on top of the store.

Python dicts are modelled as association lists over `String`; `time.time()`
and the randomly generated token values (`secrets.token_urlsafe`) are passed
as explicit parameters.  Optional / possibly-missing dict fields are
`Option`s; Python truthiness of numbers (`0` falsy) and strings (`""` falsy)
is modelled explicitly where the source relies on it.
-/

namespace NotionMcp

/-! ### String-keyed maps (Python dicts) -/

def mfind {α : Type} : List (String × α) → String → Option α
  | [], _ => none
  | (k, v) :: rest, k' => if k = k' then some v else mfind rest k'

/-- `dict.pop(k, None)` / `del dict[k]`. -/
def merase {α : Type} (m : List (String × α)) (k : String) : List (String × α) :=
  m.filter (fun p => p.1 != k)

/-- `dict[k] = v` (insert or overwrite). -/
def minsert {α : Type} (m : List (String × α)) (k : String) (v : α) : List (String × α) :=
  (k, v) :: merase m k

theorem mfind_merase {α : Type} (m : List (String × α)) (k k' : String) :
    mfind (merase m k) k' = if k = k' then none else mfind m k' := by
  induction m with
  | nil => simp [merase, mfind]
  | cons p t ih =>
    obtain ⟨a, b⟩ := p
    by_cases hak : a = k
    · subst hak
      have h1 : merase ((a, b) :: t) a = merase t a := by
        simp [merase, List.filter_cons]
      rw [h1, ih]
      by_cases hkk : a = k'
      · simp [hkk]
      · simp [hkk, mfind]
    · have h1 : merase ((a, b) :: t) k = (a, b) :: merase t k := by
        simp [merase, List.filter_cons, bne_iff_ne.mpr hak]
      rw [h1]
      show (if a = k' then some b else mfind (merase t k) k') = _
      by_cases hak' : a = k'
      · subst hak'
        rw [if_pos rfl, if_neg (fun h => hak h.symm)]
        simp [mfind]
      · rw [if_neg hak', ih]
        by_cases hkk : k = k'
        · simp [hkk]
        · simp [hkk, mfind, hak']

theorem mfind_minsert {α : Type} (m : List (String × α)) (k k' : String) (v : α) :
    mfind (minsert m k v) k' = if k = k' then some v else mfind m k' := by
  simp only [minsert, mfind]
  by_cases h : k = k'
  · simp [h]
  · simp only [h, if_false]
    rw [mfind_merase]
    simp [h]

theorem mfind_mem {α : Type} {m : List (String × α)} {k : String} {v : α}
    (h : mfind m k = some v) : (k, v) ∈ m := by
  induction m with
  | nil => simp [mfind] at h
  | cons p t ih =>
    obtain ⟨a, b⟩ := p
    by_cases hak : a = k
    · subst hak
      have h1 : mfind ((a, b) :: t) a = some b := by simp [mfind]
      rw [h1] at h
      injection h with h
      subst h
      exact List.mem_cons_self _ _
    · have h1 : mfind ((a, b) :: t) k = mfind t k := by simp [mfind, hak]
      rw [h1] at h
      exact List.mem_cons_of_mem _ (ih h)

theorem mem_merase {α : Type} {m : List (String × α)} {k : String} {p : String × α}
    (h : p ∈ merase m k) : p ∈ m :=
  List.mem_of_mem_filter h

/-! ### Record types (the five collections' entries)

Fields follow the dict keys written by `provider.py`; fields read through
`dict.get` (possibly absent / `None`) are `Option`s. -/

structure ClientRec where
  client_id : String
  client_secret : String
  client_id_issued_at : Nat
  client_secret_expires_at : Nat
deriving DecidableEq

structure PendingRec where
  client_id : String
  redirect_uri : String
  code_challenge : String
  state : Option String
  scopes : Option (List String)
  redirect_uri_provided_explicitly : Bool
  resource : Option String
  expires_at : Option Nat
deriving DecidableEq

structure CodeRec where
  notion_token : String
  client_id : String
  code_challenge : String
  redirect_uri : String
  redirect_uri_provided_explicitly : Bool
  scopes : List String
  resource : Option String
  expires_at : Option Nat
deriving DecidableEq

structure AccessRec where
  notion_token : String
  client_id : String
  scopes : List String
  expires_at : Option Nat
  refresh_token : Option String
  resource : Option String
deriving DecidableEq

structure RefreshRec where
  notion_token : String
  client_id : String
  scopes : List String
  access_token : Option String
  resource : Option String
deriving DecidableEq

/-! ### TokenStore (`src/auth/storage.py`)

`data` is the in-memory `self._data`; `journal` is the sequence of encrypted
snapshots persisted by `_save` (earliest first).  Each public mutator holds
the lock for its whole body and calls `_save` exactly once, which we model by
appending the new snapshot to the journal. -/

structure StoreData where
  clients : List (String × ClientRec)
  pending_auth : List (String × PendingRec)
  auth_codes : List (String × CodeRec)
  access_tokens : List (String × AccessRec)
  refresh_tokens : List (String × RefreshRec)
deriving DecidableEq

def emptyData : StoreData := ⟨[], [], [], [], []⟩

structure TokenStore where
  data : StoreData
  journal : List StoreData
deriving DecidableEq

def emptyStore : TokenStore := ⟨emptyData, []⟩

/-- Mutate to snapshot `d` and persist it (`self._data = ...; self._save()`). -/
def TokenStore.save (s : TokenStore) (d : StoreData) : TokenStore :=
  ⟨d, s.journal ++ [d]⟩

def TokenStore.store_client (s : TokenStore) (client_id : String) (client_data : ClientRec) :
    TokenStore :=
  s.save { s.data with clients := minsert s.data.clients client_id client_data }

def TokenStore.get_client (s : TokenStore) (client_id : String) : Option ClientRec :=
  mfind s.data.clients client_id

def TokenStore.store_pending_auth (s : TokenStore) (state : String) (auth_data : PendingRec) :
    TokenStore :=
  s.save { s.data with pending_auth := minsert s.data.pending_auth state auth_data }

/-- `get_pending_auth`: lazy expiry eviction, `data.get("expires_at", 0) < time.time()`. -/
def TokenStore.get_pending_auth (s : TokenStore) (state : String) (now : Nat) :
    TokenStore × Option PendingRec :=
  match mfind s.data.pending_auth state with
  | none => (s, none)
  | some d =>
    if d.expires_at.getD 0 < now then
      (s.save { s.data with pending_auth := merase s.data.pending_auth state }, none)
    else
      (s, some d)

def TokenStore.delete_pending_auth (s : TokenStore) (state : String) : TokenStore :=
  s.save { s.data with pending_auth := merase s.data.pending_auth state }

def TokenStore.store_auth_code (s : TokenStore) (code : String) (code_data : CodeRec) :
    TokenStore :=
  s.save { s.data with auth_codes := minsert s.data.auth_codes code code_data }

/-- `get_auth_code`: lazy expiry eviction, `data.get("expires_at", 0) < time.time()`. -/
def TokenStore.get_auth_code (s : TokenStore) (code : String) (now : Nat) :
    TokenStore × Option CodeRec :=
  match mfind s.data.auth_codes code with
  | none => (s, none)
  | some d =>
    if d.expires_at.getD 0 < now then
      (s.save { s.data with auth_codes := merase s.data.auth_codes code }, none)
    else
      (s, some d)

def TokenStore.delete_auth_code (s : TokenStore) (code : String) : TokenStore :=
  s.save { s.data with auth_codes := merase s.data.auth_codes code }

def TokenStore.store_access_token (s : TokenStore) (token : String) (token_data : AccessRec) :
    TokenStore :=
  s.save { s.data with access_tokens := minsert s.data.access_tokens token token_data }

/-- `get_access_token`: evicts only when `data.get("expires_at")` is truthy
(present and nonzero) and in the past — a missing, `None` or `0` expiry means
the token never expires. -/
def TokenStore.get_access_token (s : TokenStore) (token : String) (now : Nat) :
    TokenStore × Option AccessRec :=
  match mfind s.data.access_tokens token with
  | none => (s, none)
  | some d =>
    match d.expires_at with
    | none => (s, some d)
    | some e =>
      if e ≠ 0 ∧ e < now then
        (s.save { s.data with access_tokens := merase s.data.access_tokens token }, none)
      else
        (s, some d)

def TokenStore.delete_access_token (s : TokenStore) (token : String) : TokenStore :=
  s.save { s.data with access_tokens := merase s.data.access_tokens token }

def TokenStore.store_refresh_token (s : TokenStore) (token : String) (token_data : RefreshRec) :
    TokenStore :=
  s.save { s.data with refresh_tokens := minsert s.data.refresh_tokens token token_data }

/-- `get_refresh_token`: pure lookup, no expiry, no save. -/
def TokenStore.get_refresh_token (s : TokenStore) (token : String) : Option RefreshRec :=
  mfind s.data.refresh_tokens token

def TokenStore.delete_refresh_token (s : TokenStore) (token : String) : TokenStore :=
  s.save { s.data with refresh_tokens := merase s.data.refresh_tokens token }

/-- `rotate_tokens`: the four-way delete/delete/insert/insert under one lock
acquisition and a single `_save`.  The old-access pop is guarded by
`if old_access_token:` — Python truthiness, so `None` *and the empty
string* skip the pop. -/
def TokenStore.rotate_tokens (s : TokenStore) (old_access_token : Option String)
    (old_refresh_token : String) (new_access_token : String) (new_access_data : AccessRec)
    (new_refresh_token : String) (new_refresh_data : RefreshRec) : TokenStore :=
  let am0 := match old_access_token with
    | some t => if t = "" then s.data.access_tokens else merase s.data.access_tokens t
    | none => s.data.access_tokens
  let rm0 := merase s.data.refresh_tokens old_refresh_token
  s.save { s.data with
    access_tokens := minsert am0 new_access_token new_access_data
    refresh_tokens := minsert rm0 new_refresh_token new_refresh_data }

/-- `delete_tokens_for_access_token`: pop the access token; if the popped
record names a refresh token, pop that too; one `_save`. -/
def TokenStore.delete_tokens_for_access_token (s : TokenStore) (access_token : String) :
    TokenStore :=
  match mfind s.data.access_tokens access_token with
  | none => s.save s.data
  | some token_data =>
    let am := merase s.data.access_tokens access_token
    match token_data.refresh_token with
    | some r =>
      s.save { s.data with access_tokens := am
                           refresh_tokens := merase s.data.refresh_tokens r }
    | none => s.save { s.data with access_tokens := am }

/-- `delete_tokens_for_refresh_token`: symmetric cascading delete. -/
def TokenStore.delete_tokens_for_refresh_token (s : TokenStore) (refresh_token : String) :
    TokenStore :=
  match mfind s.data.refresh_tokens refresh_token with
  | none => s.save s.data
  | some token_data =>
    let rm := merase s.data.refresh_tokens refresh_token
    match token_data.access_token with
    | some a =>
      s.save { s.data with access_tokens := merase s.data.access_tokens a
                           refresh_tokens := rm }
    | none => s.save { s.data with refresh_tokens := rm }

/-! ### Provider-level value types (from `mcp.server.auth.provider`)

Only the fields the provider code reads/writes are modelled. -/

structure AuthorizationCode where
  code : String
  client_id : String
  code_challenge : String
  redirect_uri : String
  redirect_uri_provided_explicitly : Bool
  scopes : List String
  expires_at : Option Nat
  resource : Option String
deriving DecidableEq

structure AccessToken where
  token : String
  client_id : String
  scopes : List String
  expires_at : Option Nat
  resource : Option String
deriving DecidableEq

structure RefreshToken where
  token : String
  client_id : String
  scopes : List String
deriving DecidableEq

structure OAuthToken where
  access_token : String
  token_type : String
  expires_in : Nat
  refresh_token : String
  scope : Option String
deriving DecidableEq

structure TokenError where
  error : String
  error_description : String
deriving DecidableEq

/-! ### NotionOAuthProvider (`src/auth/provider.py`)

Stateless-config fields (`base_url`, `notion_client_id`, …) are passed as
parameters; `time.time()` is `now : Nat`; each `secrets.token_urlsafe`
result is an explicit parameter; the upstream HTTP exchange is an explicit
`Except Nat String` parameter (error status, or the upstream access token
extracted from the 2xx JSON body). -/

def NOTION_AUTHORIZE_URL : String := "https://api.notion.com/v1/oauth/authorize"

def AUTH_CODE_LIFETIME : Nat := 300

def ACCESS_TOKEN_LIFETIME : Nat := 86400

/-- `urllib.parse.urlencode`, without percent-escaping (all values used here
are URL-safe token strings). -/
def urlencode (ps : List (String × String)) : String :=
  String.intercalate "&" (ps.map (fun p => p.1 ++ "=" ++ p.2))

/-- Python truthiness of an optional string (`None` and `""` are falsy). -/
def strTruthy : Option String → Bool
  | none => false
  | some s => s != ""

/-- `authorize`: persist a `PendingAuthorization` keyed by the generated
Notion-side state, and return the upstream authorization URL. -/
def authorize (s : TokenStore) (notion_client_id base_url : String)
    (client_id redirect_uri : String) (code_challenge : String) (state : Option String)
    (scopes : Option (List String)) (redirect_uri_provided_explicitly : Bool)
    (resource : Option String) (now : Nat) (notion_state : String) :
    TokenStore × String :=
  let s1 := s.store_pending_auth notion_state
    { client_id := client_id
      redirect_uri := redirect_uri
      code_challenge := code_challenge
      state := state
      scopes := scopes
      redirect_uri_provided_explicitly := redirect_uri_provided_explicitly
      resource := resource
      expires_at := some (now + 600) }
  (s1, NOTION_AUTHORIZE_URL ++ "?" ++ urlencode
    [("client_id", notion_client_id),
     ("redirect_uri", base_url ++ "/oauth/callback"),
     ("response_type", "code"),
     ("owner", "user"),
     ("state", notion_state)])

/-- `exchange_notion_code`: look up the pending authorization, exchange the
upstream code (modelled by `upstream`), mint a proxy authorization code,
delete the pending record, and build the redirect back to the client.
Errors are the raised `ValueError` messages. -/
def exchange_notion_code (s : TokenStore) (code state : String) (now : Nat)
    (upstream : Except Nat String) (our_code : String) :
    TokenStore × Except String String :=
  match TokenStore.get_pending_auth s state now with
  | (s1, none) => (s1, .error "Unknown or expired auth state")
  | (s1, some pending) =>
    match upstream with
    | .error _status =>
      -- upstream detail is logged only; the raised error is this constant
      (s1, .error "Failed to exchange authorization code with Notion")
    | .ok notion_token =>
      let s2 := s1.store_auth_code our_code
        { notion_token := notion_token
          client_id := pending.client_id
          code_challenge := pending.code_challenge
          redirect_uri := pending.redirect_uri
          redirect_uri_provided_explicitly := pending.redirect_uri_provided_explicitly
          scopes := pending.scopes.getD []
          resource := pending.resource
          expires_at := some (now + AUTH_CODE_LIFETIME) }
      let s3 := s2.delete_pending_auth state
      let redirect_params :=
        [("code", our_code)] ++
          (if strTruthy pending.state then [("state", pending.state.getD "")] else [])
      -- Python `"?" in redirect_uri`, on the string's character list
      let separator := if pending.redirect_uri.data.contains '?' then "&" else "?"
      (s3, .ok (pending.redirect_uri ++ separator ++ urlencode redirect_params))

/-- `load_authorization_code`: lookup with expiry eviction and the
client-ownership check (mismatch is indistinguishable from not-found). -/
def load_authorization_code (s : TokenStore) (client_id : String)
    (authorization_code : String) (now : Nat) :
    TokenStore × Option AuthorizationCode :=
  match TokenStore.get_auth_code s authorization_code now with
  | (s1, none) => (s1, none)
  | (s1, some d) =>
    if d.client_id ≠ client_id then (s1, none)
    else
      (s1, some
        { code := authorization_code
          client_id := d.client_id
          code_challenge := d.code_challenge
          redirect_uri := d.redirect_uri
          redirect_uri_provided_explicitly := d.redirect_uri_provided_explicitly
          scopes := d.scopes
          expires_at := d.expires_at
          resource := d.resource })

/-- `exchange_authorization_code`: re-lookup the code, mint and persist a
fresh access/refresh pair bound to the same upstream token, delete the code. -/
def exchange_authorization_code (s : TokenStore) (client_id : String)
    (authorization_code : AuthorizationCode) (now : Nat)
    (access_token refresh_token : String) :
    TokenStore × Except TokenError OAuthToken :=
  match TokenStore.get_auth_code s authorization_code.code now with
  | (s1, none) =>
    (s1, .error { error := "invalid_grant", error_description := "Authorization code not found" })
  | (s1, some d) =>
    let notion_token := d.notion_token
    let scopes := d.scopes
    let expires_at := now + ACCESS_TOKEN_LIFETIME
    let s2 := s1.store_access_token access_token
      { notion_token := notion_token
        client_id := client_id
        scopes := scopes
        expires_at := some expires_at
        refresh_token := some refresh_token
        resource := d.resource }
    let s3 := s2.store_refresh_token refresh_token
      { notion_token := notion_token
        client_id := client_id
        scopes := scopes
        access_token := some access_token
        resource := d.resource }
    let s4 := s3.delete_auth_code authorization_code.code
    (s4, .ok
      { access_token := access_token
        token_type := "Bearer"
        expires_in := ACCESS_TOKEN_LIFETIME
        refresh_token := refresh_token
        scope := if scopes.isEmpty then none else some (String.intercalate " " scopes) })

/-- `load_access_token`: lookup with TTL eviction.  (The per-request
upstream-credential contextvar side effect lives outside the store and is
not part of the returned value.) -/
def load_access_token (s : TokenStore) (token : String) (now : Nat) :
    TokenStore × Option AccessToken :=
  match TokenStore.get_access_token s token now with
  | (s1, none) => (s1, none)
  | (s1, some d) =>
    (s1, some
      { token := token
        client_id := d.client_id
        scopes := d.scopes
        expires_at := d.expires_at
        resource := d.resource })

/-- `load_refresh_token`: pure lookup with the client-ownership check. -/
def load_refresh_token (s : TokenStore) (client_id : String) (refresh_token : String) :
    Option RefreshToken :=
  match TokenStore.get_refresh_token s refresh_token with
  | none => none
  | some d =>
    if d.client_id ≠ client_id then none
    else some { token := refresh_token, client_id := d.client_id, scopes := d.scopes }

/-- `exchange_refresh_token`: resolve the stored record, carry forward the
upstream binding and resource, fall back to stored scopes when the caller
requests none, and rotate atomically via `rotate_tokens`. -/
def exchange_refresh_token (s : TokenStore) (client_id : String)
    (refresh_token : RefreshToken) (scopes : List String) (now : Nat)
    (new_access_token new_refresh_token : String) :
    TokenStore × Except TokenError OAuthToken :=
  match TokenStore.get_refresh_token s refresh_token.token with
  | none =>
    (s, .error { error := "invalid_grant", error_description := "Refresh token not found" })
  | some d =>
    let notion_token := d.notion_token
    let effective_scopes := if scopes.isEmpty then d.scopes else scopes
    let resource := d.resource
    let expires_at := now + ACCESS_TOKEN_LIFETIME
    let s1 := s.rotate_tokens d.access_token refresh_token.token
      new_access_token
      { notion_token := notion_token
        client_id := client_id
        scopes := effective_scopes
        expires_at := some expires_at
        refresh_token := some new_refresh_token
        resource := resource }
      new_refresh_token
      { notion_token := notion_token
        client_id := client_id
        scopes := effective_scopes
        access_token := some new_access_token
        resource := resource }
    (s1, .ok
      { access_token := new_access_token
        token_type := "Bearer"
        expires_in := ACCESS_TOKEN_LIFETIME
        refresh_token := new_refresh_token
        scope := if effective_scopes.isEmpty then none
                 else some (String.intercalate " " effective_scopes) })

/-- `revoke_token`: `isinstance` dispatch over the two run-time token types;
both halves of the pair are deleted by one cascading store operation. -/
def revoke_token (s : TokenStore) (token : Sum AccessToken RefreshToken) : TokenStore :=
  match token with
  | .inl t => s.delete_tokens_for_access_token t.token
  | .inr t => s.delete_tokens_for_refresh_token t.token

/-! ### Crash-safe persistence (`TokenStore._save`, storage.py lines 65–77)

The on-disk effect of `_save` at the level of the OS primitives it calls.
`DiskState.live` is `data/tokens.json`, `DiskState.tmp` the `mkstemp`
temporary.  Each primitive is a `DiskState` transformer; the live file is
only ever touched by the atomic `os.replace`. -/

structure DiskState where
  live : Option (List Nat)
  tmp : Option (List Nat)
deriving DecidableEq

inductive SaveStep where
  | mkstemp
  | write
  | fsync
  | close
  | replace
deriving DecidableEq

inductive SaveResult where
  | ok
  | err
deriving DecidableEq

def fsMkstemp (d : DiskState) : DiskState := ⟨d.live, some []⟩

def fsWrite (encrypted : List Nat) (d : DiskState) : DiskState := ⟨d.live, some encrypted⟩

/-- An interrupted `os.write` that put only the first `n` bytes in the file. -/
def fsWritePart (encrypted : List Nat) (n : Nat) (d : DiskState) : DiskState :=
  ⟨d.live, some (encrypted.take n)⟩

def fsFsync (d : DiskState) : DiskState := d

def fsClose (d : DiskState) : DiskState := d

/-- `os.replace(tmp_path, live_path)`: atomic rename over the live file. -/
def fsReplace (d : DiskState) : DiskState := ⟨d.tmp, none⟩

def fsUnlink (d : DiskState) : DiskState := ⟨d.live, none⟩

/-- The filesystem states `_save` passes through when every primitive
succeeds (after `mkstemp`, mid-write, after the full `os.write`, after
`os.fsync`, after `os.close`, after `os.replace`). -/
def saveStates (old : Option (List Nat)) (encrypted : List Nat) (nWritten : Nat) :
    List DiskState :=
  let d0 : DiskState := ⟨old, none⟩
  [fsMkstemp d0,
   fsWritePart encrypted nWritten (fsMkstemp d0),
   fsWrite encrypted (fsMkstemp d0),
   fsFsync (fsWrite encrypted (fsMkstemp d0)),
   fsClose (fsFsync (fsWrite encrypted (fsMkstemp d0))),
   fsReplace (fsClose (fsFsync (fsWrite encrypted (fsMkstemp d0))))]

/-- `_save` with failure injection: `failAt` names the primitive that
raises (`none` = all succeed).  `mkstemp` raises before the `try`, so
nothing is cleaned up; a failure of `write`/`fsync`/`close` is cleaned up
by the handler (close, unlink) and re-raised; a failing `os.replace`
changes nothing (rename is atomic), and the handler's second `os.close` on
the already-closed descriptor itself raises before the unlink runs, so the
temporary file survives but the exception still propagates. -/
def runSave (old : Option (List Nat)) (encrypted : List Nat)
    (failAt : Option SaveStep) (nWritten : Nat) : SaveResult × DiskState :=
  let d0 : DiskState := ⟨old, none⟩
  match failAt with
  | some .mkstemp => (.err, d0)
  | some .write => (.err, fsUnlink (fsWritePart encrypted nWritten (fsMkstemp d0)))
  | some .fsync => (.err, fsUnlink (fsWrite encrypted (fsMkstemp d0)))
  | some .close => (.err, fsUnlink (fsFsync (fsWrite encrypted (fsMkstemp d0))))
  | some .replace => (.err, fsClose (fsFsync (fsWrite encrypted (fsMkstemp d0))))
  | none => (.ok, fsReplace (fsClose (fsFsync (fsWrite encrypted (fsMkstemp d0)))))

/-! ### Operation traces and the access/refresh pairing invariant -/

inductive Step where
  | sAuthorize (notion_client_id base_url client_id redirect_uri code_challenge : String)
      (state : Option String) (scopes : Option (List String)) (expl : Bool)
      (resource : Option String) (now : Nat) (notion_state : String)
  | sNotionCode (code state : String) (now : Nat) (upstream : Except Nat String)
      (our_code : String)
  | sLoadAuthCode (client_id code : String) (now : Nat)
  | sExchangeAuthCode (client_id : String) (ac : AuthorizationCode) (now : Nat)
      (access_token refresh_token : String)
  | sLoadAccessToken (token : String) (now : Nat)
  | sLoadRefreshToken (client_id token : String)
  | sExchangeRefreshToken (client_id : String) (rt : RefreshToken) (scopes : List String)
      (now : Nat) (new_access_token new_refresh_token : String)
  | sRevoke (token : Sum AccessToken RefreshToken)

def Step.apply (s : TokenStore) : Step → TokenStore
  | .sAuthorize nci bu cid ru cc st sc ex rs now ns =>
    (authorize s nci bu cid ru cc st sc ex rs now ns).1
  | .sNotionCode c st now up oc => (exchange_notion_code s c st now up oc).1
  | .sLoadAuthCode cid c now => (load_authorization_code s cid c now).1
  | .sExchangeAuthCode cid ac now atk rtk =>
    (exchange_authorization_code s cid ac now atk rtk).1
  | .sLoadAccessToken tok now => (load_access_token s tok now).1
  | .sLoadRefreshToken _cid _tok => s
  | .sExchangeRefreshToken cid rt sc now natk nrtk =>
    (exchange_refresh_token s cid rt sc now natk nrtk).1
  | .sRevoke tok => revoke_token s tok

/-- A generated token value is fresh for the store when it is neither a key
nor a stored partner pointer in either token collection
(`secrets.token_urlsafe(32)` collides with existing state only with
negligible probability). -/
def freshInB (am : List (String × AccessRec)) (rm : List (String × RefreshRec))
    (t : String) : Bool :=
  (mfind am t).isNone && (mfind rm t).isNone
    && am.all (fun p => p.2.refresh_token != some t)
    && rm.all (fun p => p.2.access_token != some t)

def freshIn (am : List (String × AccessRec)) (rm : List (String × RefreshRec))
    (t : String) : Prop :=
  mfind am t = none ∧ mfind rm t = none ∧
  (∀ p ∈ am, p.2.refresh_token ≠ some t) ∧
  (∀ p ∈ rm, p.2.access_token ≠ some t)

theorem freshInB_iff (am : List (String × AccessRec)) (rm : List (String × RefreshRec))
    (t : String) : freshInB am rm t = true ↔ freshIn am rm t := by
  simp [freshInB, freshIn, List.all_eq_true, Option.isNone_iff_eq_none, bne_iff_ne,
    and_assoc]

/-- Side condition on a step: the tokens it generates are fresh and
non-empty (`secrets.token_urlsafe(32)` always yields a 43-character
string). -/
def Step.okB (s : TokenStore) : Step → Bool
  | .sExchangeAuthCode _ _ _ atk rtk =>
    (atk != "") && (rtk != "")
      && freshInB s.data.access_tokens s.data.refresh_tokens atk
      && freshInB s.data.access_tokens s.data.refresh_tokens rtk
  | .sExchangeRefreshToken _ _ _ _ natk nrtk =>
    (natk != "") && (nrtk != "")
      && freshInB s.data.access_tokens s.data.refresh_tokens natk
      && freshInB s.data.access_tokens s.data.refresh_tokens nrtk
  | _ => true

def okTraceB : TokenStore → List Step → Bool
  | _, [] => true
  | s, st :: rest => Step.okB s st && okTraceB (Step.apply s st) rest

def runTrace : TokenStore → List Step → TokenStore
  | s, [] => s
  | s, st :: rest => runTrace (Step.apply s st) rest

/-- One-directional pairing invariant actually maintained by the code:
every access-token record names exactly one refresh-token record that
exists and names it back; every refresh-token record names exactly one
access-token value whose record — when still present — names it back. -/
def InvAR (am : List (String × AccessRec)) (rm : List (String × RefreshRec)) : Prop :=
  (∀ a arec, mfind am a = some arec →
      ∃ r, arec.refresh_token = some r ∧
        ∃ rrec, mfind rm r = some rrec ∧ rrec.access_token = some a) ∧
  (∀ r rrec, mfind rm r = some rrec →
      ∃ a, rrec.access_token = some a ∧
        ∀ arec, mfind am a = some arec → arec.refresh_token = some r)

/-- No empty-string token value appears as a key or as a partner pointer
in either token map.  Generated token values are never empty, and this is
what keeps the truthiness guard in `rotate_tokens` (`if old_access_token:`
— `""` falsy, pop skipped) from ever firing on a live pair. -/
def NoEmptyTok (am : List (String × AccessRec)) (rm : List (String × RefreshRec)) : Prop :=
  (∀ p ∈ am, p.1 ≠ "" ∧ p.2.refresh_token ≠ some "") ∧
  (∀ p ∈ rm, p.1 ≠ "" ∧ p.2.access_token ≠ some "")

/-- The pairing invariant in the spec's words: every access token names a
refresh token that exists and names it back, and vice versa. -/
def PairedInvariantSpec (am : List (String × AccessRec))
    (rm : List (String × RefreshRec)) : Prop :=
  (∀ a arec, mfind am a = some arec →
      ∃ r, arec.refresh_token = some r ∧
        ∃ rrec, mfind rm r = some rrec ∧ rrec.access_token = some a) ∧
  (∀ r rrec, mfind rm r = some rrec →
      ∃ a, rrec.access_token = some a ∧
        ∃ arec, mfind am a = some arec ∧ arec.refresh_token = some r)

theorem freshIn_merase_access {am : List (String × AccessRec)}
    {rm : List (String × RefreshRec)} {t : String} (h : freshIn am rm t) (a : String) :
    freshIn (merase am a) rm t := by
  obtain ⟨h1, h2, h3, h4⟩ := h
  refine ⟨?_, h2, ?_, h4⟩
  · rw [mfind_merase]; split <;> simp [h1]
  · intro p hp; exact h3 p (mem_merase hp)

theorem freshIn_merase_refresh {am : List (String × AccessRec)}
    {rm : List (String × RefreshRec)} {t : String} (h : freshIn am rm t) (r : String) :
    freshIn am (merase rm r) t := by
  obtain ⟨h1, h2, h3, h4⟩ := h
  refine ⟨h1, ?_, h3, ?_⟩
  · rw [mfind_merase]; split <;> simp [h2]
  · intro p hp; exact h4 p (mem_merase hp)

theorem NoEmptyTok_erase_access {am : List (String × AccessRec)}
    {rm : List (String × RefreshRec)} (h : NoEmptyTok am rm) (a : String) :
    NoEmptyTok (merase am a) rm :=
  ⟨fun p hp => h.1 p (mem_merase hp), h.2⟩

theorem NoEmptyTok_erase_refresh {am : List (String × AccessRec)}
    {rm : List (String × RefreshRec)} (h : NoEmptyTok am rm) (r : String) :
    NoEmptyTok am (merase rm r) :=
  ⟨h.1, fun p hp => h.2 p (mem_merase hp)⟩

theorem NoEmptyTok_insert_pair {am : List (String × AccessRec)}
    {rm : List (String × RefreshRec)} (h : NoEmptyTok am rm) {atk rtk : String}
    (hatk : atk ≠ "") (hrtk : rtk ≠ "")
    {arec : AccessRec} {rrec : RefreshRec}
    (hlink1 : arec.refresh_token = some rtk) (hlink2 : rrec.access_token = some atk) :
    NoEmptyTok (minsert am atk arec) (minsert rm rtk rrec) := by
  constructor
  · intro p hp
    rcases List.mem_cons.mp hp with h1 | h1
    · subst h1
      refine ⟨hatk, ?_⟩
      rw [hlink1]
      intro hc
      injection hc with hc
      exact hrtk hc
    · exact h.1 p (mem_merase h1)
  · intro p hp
    rcases List.mem_cons.mp hp with h1 | h1
    · subst h1
      refine ⟨hrtk, ?_⟩
      rw [hlink2]
      intro hc
      injection hc with hc
      exact hatk hc
    · exact h.2 p (mem_merase h1)

/-- Evicting an access token (expiry or plain delete) preserves the
one-directional pairing invariant. -/
theorem InvAR_erase_access {am : List (String × AccessRec)}
    {rm : List (String × RefreshRec)} (h : InvAR am rm) (a : String) :
    InvAR (merase am a) rm := by
  obtain ⟨h1, h2⟩ := h
  constructor
  · intro a2 arec2 hfind
    rw [mfind_merase] at hfind
    by_cases hq : a = a2
    · simp [hq] at hfind
    · rw [if_neg hq] at hfind
      exact h1 a2 arec2 hfind
  · intro r rrec hfind
    obtain ⟨a0, ha0, hback⟩ := h2 r rrec hfind
    refine ⟨a0, ha0, ?_⟩
    intro arec hf2
    rw [mfind_merase] at hf2
    by_cases hq : a = a0
    · simp [hq] at hf2
    · rw [if_neg hq] at hf2
      exact hback arec hf2

/-- Inserting a mutually-linked fresh pair preserves the invariant. -/
theorem InvAR_insert_pair {am : List (String × AccessRec)}
    {rm : List (String × RefreshRec)} (h : InvAR am rm) {atk rtk : String}
    (hfa : freshIn am rm atk) (hfr : freshIn am rm rtk)
    {arec : AccessRec} {rrec : RefreshRec}
    (hlink1 : arec.refresh_token = some rtk) (hlink2 : rrec.access_token = some atk) :
    InvAR (minsert am atk arec) (minsert rm rtk rrec) := by
  obtain ⟨h1, h2⟩ := h
  constructor
  · intro a2 arec2 hfind
    rw [mfind_minsert] at hfind
    by_cases hq : atk = a2
    · subst hq
      rw [if_pos rfl] at hfind
      injection hfind with hfind
      subst hfind
      exact ⟨rtk, hlink1, rrec, by rw [mfind_minsert, if_pos rfl], hlink2⟩
    · rw [if_neg hq] at hfind
      obtain ⟨r2, hr2, rrec2, hfind2, hback2⟩ := h1 a2 arec2 hfind
      refine ⟨r2, hr2, rrec2, ?_, hback2⟩
      rw [mfind_minsert]
      by_cases hq2 : rtk = r2
      · exfalso; subst hq2
        rw [hfr.2.1] at hfind2
        cases hfind2
      · rw [if_neg hq2]; exact hfind2
  · intro r2 rrec2 hfind
    rw [mfind_minsert] at hfind
    by_cases hq : rtk = r2
    · subst hq
      rw [if_pos rfl] at hfind
      injection hfind with hfind
      subst hfind
      refine ⟨atk, hlink2, ?_⟩
      intro arec2 hf2
      rw [mfind_minsert, if_pos rfl] at hf2
      injection hf2 with hf2
      subst hf2
      exact hlink1
    · rw [if_neg hq] at hfind
      obtain ⟨a0, ha0, hback⟩ := h2 r2 rrec2 hfind
      refine ⟨a0, ha0, ?_⟩
      intro arec2 hf2
      rw [mfind_minsert] at hf2
      by_cases hq2 : atk = a0
      · exfalso
        subst hq2
        exact hfa.2.2.2 (r2, rrec2) (mfind_mem hfind) ha0
      · rw [if_neg hq2] at hf2
        exact hback arec2 hf2

/-- Removing a refresh token together with the access token it names (the
shape of both `rotate_tokens`' delete half and
`delete_tokens_for_refresh_token`) preserves the invariant. -/
theorem InvAR_revoke_refresh {am : List (String × AccessRec)}
    {rm : List (String × RefreshRec)} (h : InvAR am rm) {rtok : String} {d : RefreshRec}
    (hfind : mfind rm rtok = some d) :
    InvAR (match d.access_token with
           | some a => merase am a
           | none => am)
          (merase rm rtok) := by
  obtain ⟨h1, h2⟩ := h
  cases hd : d.access_token with
  | none =>
    simp only [hd]
    constructor
    · intro a2 arec2 hf2
      obtain ⟨r2, hr2, rrec2, hfind2, hback2⟩ := h1 a2 arec2 hf2
      refine ⟨r2, hr2, rrec2, ?_, hback2⟩
      rw [mfind_merase]
      by_cases hq : rtok = r2
      · exfalso; subst hq
        rw [hfind] at hfind2
        injection hfind2 with heq
        subst heq
        rw [hd] at hback2
        cases hback2
      · rw [if_neg hq]; exact hfind2
    · intro r2 rrec2 hf2
      rw [mfind_merase] at hf2
      by_cases hq : rtok = r2
      · simp [hq] at hf2
      · rw [if_neg hq] at hf2
        exact h2 r2 rrec2 hf2
  | some a =>
    simp only [hd]
    constructor
    · intro a2 arec2 hf2
      rw [mfind_merase] at hf2
      by_cases hqa : a = a2
      · simp [hqa] at hf2
      · rw [if_neg hqa] at hf2
        obtain ⟨r2, hr2, rrec2, hfind2, hback2⟩ := h1 a2 arec2 hf2
        refine ⟨r2, hr2, rrec2, ?_, hback2⟩
        rw [mfind_merase]
        by_cases hq : rtok = r2
        · exfalso; subst hq
          rw [hfind] at hfind2
          injection hfind2 with heq
          subst heq
          rw [hd] at hback2
          injection hback2 with heq2
          exact hqa heq2
        · rw [if_neg hq]; exact hfind2
    · intro r2 rrec2 hf2
      rw [mfind_merase] at hf2
      by_cases hq : rtok = r2
      · simp [hq] at hf2
      · rw [if_neg hq] at hf2
        obtain ⟨a0, ha0, hback⟩ := h2 r2 rrec2 hf2
        refine ⟨a0, ha0, ?_⟩
        intro arec2 hf3
        rw [mfind_merase] at hf3
        by_cases hqa : a = a0
        · simp [hqa] at hf3
        · rw [if_neg hqa] at hf3
          exact hback arec2 hf3

/-- Removing an access token together with the refresh token it names
(`delete_tokens_for_access_token`) preserves the invariant. -/
theorem InvAR_revoke_access {am : List (String × AccessRec)}
    {rm : List (String × RefreshRec)} (h : InvAR am rm) {tok : String} {d : AccessRec}
    (hfind : mfind am tok = some d) :
    InvAR (merase am tok)
          (match d.refresh_token with
           | some r => merase rm r
           | none => rm) := by
  cases hd : d.refresh_token with
  | none =>
    simp only [hd]
    exact InvAR_erase_access h tok
  | some r =>
    simp only [hd]
    obtain ⟨h1, h2⟩ := h
    constructor
    · intro a2 arec2 hf2
      rw [mfind_merase] at hf2
      by_cases hq : tok = a2
      · simp [hq] at hf2
      · rw [if_neg hq] at hf2
        obtain ⟨r2, hr2, rrec2, hfind2, hback2⟩ := h1 a2 arec2 hf2
        refine ⟨r2, hr2, rrec2, ?_, hback2⟩
        rw [mfind_merase]
        by_cases hq2 : r = r2
        · exfalso; subst hq2
          obtain ⟨rt, hrt, rrecT, hfindT, hbackT⟩ := h1 tok d hfind
          rw [hd] at hrt
          injection hrt with hrt
          subst hrt
          rw [hfindT] at hfind2
          injection hfind2 with heq
          subst heq
          rw [hbackT] at hback2
          injection hback2 with heq2
          exact hq heq2
        · rw [if_neg hq2]; exact hfind2
    · intro r2 rrec2 hf2
      rw [mfind_merase] at hf2
      by_cases hq2 : r = r2
      · simp [hq2] at hf2
      · rw [if_neg hq2] at hf2
        obtain ⟨a0, ha0, hback⟩ := h2 r2 rrec2 hf2
        refine ⟨a0, ha0, ?_⟩
        intro arec2 hf3
        rw [mfind_merase] at hf3
        by_cases hq : tok = a0
        · simp [hq] at hf3
        · rw [if_neg hq] at hf3
          exact hback arec2 hf3

theorem get_pending_auth_tokens (s : TokenStore) (st : String) (now : Nat) :
    (TokenStore.get_pending_auth s st now).1.data.access_tokens = s.data.access_tokens ∧
    (TokenStore.get_pending_auth s st now).1.data.refresh_tokens = s.data.refresh_tokens := by
  unfold TokenStore.get_pending_auth
  cases hm : mfind s.data.pending_auth st with
  | none => exact ⟨rfl, rfl⟩
  | some d =>
    dsimp only
    split
    · exact ⟨rfl, rfl⟩
    · exact ⟨rfl, rfl⟩

theorem get_auth_code_tokens (s : TokenStore) (c : String) (now : Nat) :
    (TokenStore.get_auth_code s c now).1.data.access_tokens = s.data.access_tokens ∧
    (TokenStore.get_auth_code s c now).1.data.refresh_tokens = s.data.refresh_tokens := by
  unfold TokenStore.get_auth_code
  cases hm : mfind s.data.auth_codes c with
  | none => exact ⟨rfl, rfl⟩
  | some d =>
    dsimp only
    split
    · exact ⟨rfl, rfl⟩
    · exact ⟨rfl, rfl⟩

theorem load_access_token_store (s : TokenStore) (tok : String) (now : Nat) :
    (load_access_token s tok now).1 = (TokenStore.get_access_token s tok now).1 := by
  unfold load_access_token
  rcases TokenStore.get_access_token s tok now with ⟨s1, o⟩
  cases o <;> rfl

theorem get_access_token_store (s : TokenStore) (tok : String) (now : Nat) :
    (TokenStore.get_access_token s tok now).1 = s ∨
    (TokenStore.get_access_token s tok now).1 =
      s.save { s.data with access_tokens := merase s.data.access_tokens tok } := by
  unfold TokenStore.get_access_token
  cases hm : mfind s.data.access_tokens tok with
  | none => exact Or.inl rfl
  | some d =>
    dsimp only
    cases hd : d.expires_at with
    | none => exact Or.inl rfl
    | some e =>
      dsimp only
      split
      · exact Or.inr rfl
      · exact Or.inl rfl

theorem load_authorization_code_store (s : TokenStore) (cid c : String) (now : Nat) :
    (load_authorization_code s cid c now).1 = (TokenStore.get_auth_code s c now).1 := by
  unfold load_authorization_code
  rcases TokenStore.get_auth_code s c now with ⟨s1, o⟩
  cases o with
  | none => rfl
  | some d =>
    dsimp only
    split <;> rfl

theorem delete_tokens_for_access_token_data (s : TokenStore) (tok : String) :
    (s.delete_tokens_for_access_token tok).data.access_tokens =
      (match mfind s.data.access_tokens tok with
       | none => s.data.access_tokens
       | some _ => merase s.data.access_tokens tok) ∧
    (s.delete_tokens_for_access_token tok).data.refresh_tokens =
      (match mfind s.data.access_tokens tok with
       | none => s.data.refresh_tokens
       | some td =>
         match td.refresh_token with
         | some r => merase s.data.refresh_tokens r
         | none => s.data.refresh_tokens) := by
  unfold TokenStore.delete_tokens_for_access_token
  cases hm : mfind s.data.access_tokens tok with
  | none => exact ⟨rfl, rfl⟩
  | some td =>
    obtain ⟨nt, cid, sc, ea, rt, rs⟩ := td
    dsimp only
    cases rt with
    | some r => exact ⟨rfl, rfl⟩
    | none => exact ⟨rfl, rfl⟩

theorem delete_tokens_for_refresh_token_data (s : TokenStore) (tok : String) :
    (s.delete_tokens_for_refresh_token tok).data.access_tokens =
      (match mfind s.data.refresh_tokens tok with
       | none => s.data.access_tokens
       | some td =>
         match td.access_token with
         | some a => merase s.data.access_tokens a
         | none => s.data.access_tokens) ∧
    (s.delete_tokens_for_refresh_token tok).data.refresh_tokens =
      (match mfind s.data.refresh_tokens tok with
       | none => s.data.refresh_tokens
       | some _ => merase s.data.refresh_tokens tok) := by
  unfold TokenStore.delete_tokens_for_refresh_token
  cases hm : mfind s.data.refresh_tokens tok with
  | none => exact ⟨rfl, rfl⟩
  | some td =>
    obtain ⟨nt, cid, sc, atok, rs⟩ := td
    dsimp only
    cases atok with
    | some a => exact ⟨rfl, rfl⟩
    | none => exact ⟨rfl, rfl⟩

theorem NoEmptyTok_revoke_half_access {am : List (String × AccessRec)}
    {rm : List (String × RefreshRec)} (h : NoEmptyTok am rm) (tok : String)
    (o : Option String) :
    NoEmptyTok (merase am tok)
      (match o with | some r => merase rm r | none => rm) := by
  cases o with
  | some r => exact NoEmptyTok_erase_refresh (NoEmptyTok_erase_access h tok) r
  | none => exact NoEmptyTok_erase_access h tok

theorem NoEmptyTok_revoke_half_refresh {am : List (String × AccessRec)}
    {rm : List (String × RefreshRec)} (h : NoEmptyTok am rm) (tok : String)
    (o : Option String) :
    NoEmptyTok (match o with | some a => merase am a | none => am)
      (merase rm tok) := by
  cases o with
  | some a => exact NoEmptyTok_erase_refresh (NoEmptyTok_erase_access h a) tok
  | none => exact NoEmptyTok_erase_refresh h tok

/-- Each provider operation (with fresh, non-empty generated tokens)
preserves the one-directional pairing invariant together with the absence
of empty-string token keys and pointers. -/
theorem step_preserves_Inv (s : TokenStore) (st : Step)
    (hInv : InvAR s.data.access_tokens s.data.refresh_tokens)
    (hne : NoEmptyTok s.data.access_tokens s.data.refresh_tokens)
    (hok : Step.okB s st = true) :
    InvAR (Step.apply s st).data.access_tokens
      (Step.apply s st).data.refresh_tokens ∧
    NoEmptyTok (Step.apply s st).data.access_tokens
      (Step.apply s st).data.refresh_tokens := by
  cases st with
  | sAuthorize nci bu cid ru cc sta sc ex rs now ns =>
    simpa [Step.apply, authorize, TokenStore.store_pending_auth, TokenStore.save]
      using And.intro hInv hne
  | sNotionCode c sta now up oc =>
    have hpres := get_pending_auth_tokens s sta now
    rcases hgp : TokenStore.get_pending_auth s sta now with ⟨s1, o⟩
    rw [hgp] at hpres
    simp only at hpres
    cases o with
    | none =>
      simp only [Step.apply, exchange_notion_code, hgp]
      rw [hpres.1, hpres.2]
      exact ⟨hInv, hne⟩
    | some pending =>
      cases up with
      | error code' =>
        simp only [Step.apply, exchange_notion_code, hgp]
        rw [hpres.1, hpres.2]
        exact ⟨hInv, hne⟩
      | ok ntok =>
        simp only [Step.apply, exchange_notion_code, hgp, TokenStore.store_auth_code,
          TokenStore.delete_pending_auth, TokenStore.save]
        rw [hpres.1, hpres.2]
        exact ⟨hInv, hne⟩
  | sLoadAuthCode cid c now =>
    have hpres := get_auth_code_tokens s c now
    show InvAR (load_authorization_code s cid c now).1.data.access_tokens
        (load_authorization_code s cid c now).1.data.refresh_tokens ∧
      NoEmptyTok (load_authorization_code s cid c now).1.data.access_tokens
        (load_authorization_code s cid c now).1.data.refresh_tokens
    rw [load_authorization_code_store, hpres.1, hpres.2]
    exact ⟨hInv, hne⟩
  | sExchangeAuthCode cid ac now atk rtk =>
    have hok' : (atk != "") = true ∧ (rtk != "") = true ∧
        freshInB s.data.access_tokens s.data.refresh_tokens atk = true ∧
        freshInB s.data.access_tokens s.data.refresh_tokens rtk = true := by
      simpa [Step.okB, Bool.and_eq_true, and_assoc] using hok
    have hatk : atk ≠ "" := bne_iff_ne.mp hok'.1
    have hrtk : rtk ≠ "" := bne_iff_ne.mp hok'.2.1
    have hfa := (freshInB_iff _ _ _).mp hok'.2.2.1
    have hfr := (freshInB_iff _ _ _).mp hok'.2.2.2
    have hpres := get_auth_code_tokens s ac.code now
    rcases hga : TokenStore.get_auth_code s ac.code now with ⟨s1, o⟩
    rw [hga] at hpres
    simp only at hpres
    cases o with
    | none =>
      simp only [Step.apply, exchange_authorization_code, hga]
      rw [hpres.1, hpres.2]
      exact ⟨hInv, hne⟩
    | some d =>
      simp only [Step.apply, exchange_authorization_code, hga,
        TokenStore.store_access_token, TokenStore.store_refresh_token,
        TokenStore.delete_auth_code, TokenStore.save]
      rw [hpres.1, hpres.2]
      exact ⟨InvAR_insert_pair hInv hfa hfr rfl rfl,
        NoEmptyTok_insert_pair hne hatk hrtk rfl rfl⟩
  | sLoadAccessToken tok now =>
    show InvAR (load_access_token s tok now).1.data.access_tokens
        (load_access_token s tok now).1.data.refresh_tokens ∧
      NoEmptyTok (load_access_token s tok now).1.data.access_tokens
        (load_access_token s tok now).1.data.refresh_tokens
    rw [load_access_token_store]
    rcases get_access_token_store s tok now with h1 | h1 <;> rw [h1]
    · exact ⟨hInv, hne⟩
    · exact ⟨by simpa [TokenStore.save] using InvAR_erase_access hInv tok,
        by simpa [TokenStore.save] using NoEmptyTok_erase_access hne tok⟩
  | sLoadRefreshToken cid tok => exact ⟨hInv, hne⟩
  | sExchangeRefreshToken cid rt sc now natk nrtk =>
    have hok' : (natk != "") = true ∧ (nrtk != "") = true ∧
        freshInB s.data.access_tokens s.data.refresh_tokens natk = true ∧
        freshInB s.data.access_tokens s.data.refresh_tokens nrtk = true := by
      simpa [Step.okB, Bool.and_eq_true, and_assoc] using hok
    have hnatk : natk ≠ "" := bne_iff_ne.mp hok'.1
    have hnrtk : nrtk ≠ "" := bne_iff_ne.mp hok'.2.1
    have hfa := (freshInB_iff _ _ _).mp hok'.2.2.1
    have hfr := (freshInB_iff _ _ _).mp hok'.2.2.2
    cases hgr : TokenStore.get_refresh_token s rt.token with
    | none =>
      simp only [Step.apply, exchange_refresh_token, hgr]
      exact ⟨hInv, hne⟩
    | some d =>
      -- d's record is in the store, so its access pointer is non-empty:
      -- the truthiness guard in rotate_tokens cannot fire on a live pair
      have hane : d.access_token ≠ some "" :=
        (hne.2 (rt.token, d) (mfind_mem hgr)).2
      have hrr := InvAR_revoke_refresh hInv hgr
      cases hd : d.access_token with
      | none =>
        rw [hd] at hrr
        dsimp only at hrr
        simp only [Step.apply, exchange_refresh_token, hgr, TokenStore.rotate_tokens,
          TokenStore.save, hd]
        exact ⟨InvAR_insert_pair hrr (freshIn_merase_refresh hfa _)
            (freshIn_merase_refresh hfr _) rfl rfl,
          NoEmptyTok_insert_pair (NoEmptyTok_erase_refresh hne _) hnatk hnrtk rfl rfl⟩
      | some a =>
        have hane' : a ≠ "" := fun hemp => hane (by rw [hd, hemp])
        rw [hd] at hrr
        dsimp only at hrr
        simp only [Step.apply, exchange_refresh_token, hgr, TokenStore.rotate_tokens,
          TokenStore.save, hd]
        rw [if_neg hane']
        exact ⟨InvAR_insert_pair hrr
            (freshIn_merase_refresh (freshIn_merase_access hfa a) _)
            (freshIn_merase_refresh (freshIn_merase_access hfr a) _) rfl rfl,
          NoEmptyTok_insert_pair
            (NoEmptyTok_erase_refresh (NoEmptyTok_erase_access hne a) _)
            hnatk hnrtk rfl rfl⟩
  | sRevoke tok =>
    cases tok with
    | inl t =>
      show InvAR (s.delete_tokens_for_access_token t.token).data.access_tokens
          (s.delete_tokens_for_access_token t.token).data.refresh_tokens ∧
        NoEmptyTok (s.delete_tokens_for_access_token t.token).data.access_tokens
          (s.delete_tokens_for_access_token t.token).data.refresh_tokens
      have hdata := delete_tokens_for_access_token_data s t.token
      cases hm : mfind s.data.access_tokens t.token with
      | none =>
        rw [hm] at hdata
        dsimp only at hdata
        rw [hdata.1, hdata.2]
        exact ⟨hInv, hne⟩
      | some td =>
        rw [hm] at hdata
        dsimp only at hdata
        rw [hdata.1, hdata.2]
        exact ⟨InvAR_revoke_access hInv hm,
          NoEmptyTok_revoke_half_access hne t.token td.refresh_token⟩
    | inr t =>
      show InvAR (s.delete_tokens_for_refresh_token t.token).data.access_tokens
          (s.delete_tokens_for_refresh_token t.token).data.refresh_tokens ∧
        NoEmptyTok (s.delete_tokens_for_refresh_token t.token).data.access_tokens
          (s.delete_tokens_for_refresh_token t.token).data.refresh_tokens
      have hdata := delete_tokens_for_refresh_token_data s t.token
      cases hm : mfind s.data.refresh_tokens t.token with
      | none =>
        rw [hm] at hdata
        dsimp only at hdata
        rw [hdata.1, hdata.2]
        exact ⟨hInv, hne⟩
      | some td =>
        rw [hm] at hdata
        dsimp only at hdata
        rw [hdata.1, hdata.2]
        exact ⟨InvAR_revoke_refresh hInv hm,
          NoEmptyTok_revoke_half_refresh hne t.token td.access_token⟩

/-- From a store satisfying both invariants, a well-formed trace of
provider operations maintains them. -/
theorem okTrace_Inv : ∀ (tr : List Step) (s : TokenStore),
    InvAR s.data.access_tokens s.data.refresh_tokens →
    NoEmptyTok s.data.access_tokens s.data.refresh_tokens →
    okTraceB s tr = true →
    InvAR (runTrace s tr).data.access_tokens (runTrace s tr).data.refresh_tokens ∧
    NoEmptyTok (runTrace s tr).data.access_tokens (runTrace s tr).data.refresh_tokens
  | [], _, h, hn, _ => ⟨h, hn⟩
  | st :: rest, s, h, hn, hok => by
    simp only [okTraceB, Bool.and_eq_true] at hok
    simp only [runTrace]
    obtain ⟨h1, h2⟩ := step_preserves_Inv s st h hn hok.1
    exact okTrace_Inv rest (Step.apply s st) h1 h2 hok.2

/-! ### Evaluation lemmas for the getters -/

theorem get_access_token_eq_none {s : TokenStore} {tok : String} (now : Nat)
    (h : mfind s.data.access_tokens tok = none) :
    TokenStore.get_access_token s tok now = (s, none) := by
  unfold TokenStore.get_access_token
  rw [h]

theorem get_access_token_eq_live {s : TokenStore} {tok : String} {d : AccessRec} (now : Nat)
    (h : mfind s.data.access_tokens tok = some d)
    (hexp : ∀ e, d.expires_at = some e → ¬(e ≠ 0 ∧ e < now)) :
    TokenStore.get_access_token s tok now = (s, some d) := by
  unfold TokenStore.get_access_token
  rw [h]
  dsimp only
  cases hd : d.expires_at with
  | none => rfl
  | some e =>
    dsimp only
    rw [if_neg (hexp e hd)]

theorem get_access_token_eq_evict {s : TokenStore} {tok : String} {d : AccessRec}
    {e : Nat} (now : Nat) (h : mfind s.data.access_tokens tok = some d)
    (hd : d.expires_at = some e) (he : e ≠ 0 ∧ e < now) :
    TokenStore.get_access_token s tok now =
      (s.save { s.data with access_tokens := merase s.data.access_tokens tok }, none) := by
  unfold TokenStore.get_access_token
  rw [h]
  dsimp only
  rw [hd]
  dsimp only
  rw [if_pos he]

theorem get_auth_code_eq_none {s : TokenStore} {c : String} (now : Nat)
    (h : mfind s.data.auth_codes c = none) :
    TokenStore.get_auth_code s c now = (s, none) := by
  unfold TokenStore.get_auth_code
  rw [h]

theorem get_auth_code_eq_live {s : TokenStore} {c : String} {d : CodeRec} (now : Nat)
    (h : mfind s.data.auth_codes c = some d)
    (hexp : ¬ (d.expires_at.getD 0 < now)) :
    TokenStore.get_auth_code s c now = (s, some d) := by
  unfold TokenStore.get_auth_code
  rw [h]
  dsimp only
  rw [if_neg hexp]

theorem get_auth_code_eq_evict {s : TokenStore} {c : String} {d : CodeRec} (now : Nat)
    (h : mfind s.data.auth_codes c = some d)
    (hexp : d.expires_at.getD 0 < now) :
    TokenStore.get_auth_code s c now =
      (s.save { s.data with auth_codes := merase s.data.auth_codes c }, none) := by
  unfold TokenStore.get_auth_code
  rw [h]
  dsimp only
  rw [if_pos hexp]

theorem get_pending_auth_eq_none {s : TokenStore} {st : String} (now : Nat)
    (h : mfind s.data.pending_auth st = none) :
    TokenStore.get_pending_auth s st now = (s, none) := by
  unfold TokenStore.get_pending_auth
  rw [h]

theorem get_pending_auth_eq_live {s : TokenStore} {st : String} {d : PendingRec} (now : Nat)
    (h : mfind s.data.pending_auth st = some d)
    (hexp : ¬ (d.expires_at.getD 0 < now)) :
    TokenStore.get_pending_auth s st now = (s, some d) := by
  unfold TokenStore.get_pending_auth
  rw [h]
  dsimp only
  rw [if_neg hexp]

theorem get_pending_auth_eq_evict {s : TokenStore} {st : String} {d : PendingRec} (now : Nat)
    (h : mfind s.data.pending_auth st = some d)
    (hexp : d.expires_at.getD 0 < now) :
    TokenStore.get_pending_auth s st now =
      (s.save { s.data with pending_auth := merase s.data.pending_auth st }, none) := by
  unfold TokenStore.get_pending_auth
  rw [h]
  dsimp only
  rw [if_pos hexp]

/-! ### Claim theorems -/

def c1CexS : TokenStore :=
  ⟨{ emptyData with
      access_tokens := [("", ⟨"nt", "cid", ["s1"], some 90000, some "r0", none⟩)]
      refresh_tokens := [("r0", ⟨"nt", "cid", ["s1"], some "", none⟩)] }, []⟩

/-- C1 counterexample: a refresh token whose stored pair names the
empty-string access token.  `rotate_tokens` guards the old-access pop with
`if old_access_token:`, and `""` is falsy in Python, so after
`exchange_refresh_token` the old access token is still resolvable —
the claim's "old access token unresolvable" fails as stated. -/
theorem c1_counterexample :
    TokenStore.get_refresh_token c1CexS "r0" = some ⟨"nt", "cid", ["s1"], some "", none⟩ ∧
    (TokenStore.get_access_token
      (exchange_refresh_token c1CexS "cid" ⟨"r0", "cid", ["s1"]⟩ [] 1000 "a1" "r1").1
      "" 1000).2 = some ⟨"nt", "cid", ["s1"], some 90000, some "r0", none⟩ := by
  decide

/-- C1 (amended): for every refresh token resolvable in the store whose
record names a *non-empty* paired access token (generated token values
never are empty), `exchange_refresh_token` leaves the old access and old
refresh tokens unresolvable, makes a fresh mutually-linked pair resolvable
bound to the same upstream `notion_token` and resource — with the
requested scopes when non-empty, otherwise the stored ones — and the
whole replacement persists as exactly one snapshot (the store's atomic
rotation).  For an empty-string paired access token the truthiness guard
in `rotate_tokens` skips the old-access deletion. -/
theorem c1_refresh_rotation (s : TokenStore) (client_id : String) (rt : RefreshToken)
    (d : RefreshRec) (a : String) (scopes : List String) (now : Nat) (na nr : String)
    (hfind : TokenStore.get_refresh_token s rt.token = some d)
    (ha : d.access_token = some a) (hane : a ≠ "")
    (hna : na ≠ a) (hnr : nr ≠ rt.token) :
    (∀ n2, (TokenStore.get_access_token
        (exchange_refresh_token s client_id rt scopes now na nr).1 a n2).2 = none) ∧
    TokenStore.get_refresh_token
      (exchange_refresh_token s client_id rt scopes now na nr).1 rt.token = none ∧
    (TokenStore.get_access_token
        (exchange_refresh_token s client_id rt scopes now na nr).1 na now).2 =
      some { notion_token := d.notion_token, client_id := client_id,
             scopes := if scopes.isEmpty then d.scopes else scopes,
             expires_at := some (now + ACCESS_TOKEN_LIFETIME),
             refresh_token := some nr, resource := d.resource } ∧
    TokenStore.get_refresh_token
      (exchange_refresh_token s client_id rt scopes now na nr).1 nr =
      some { notion_token := d.notion_token, client_id := client_id,
             scopes := if scopes.isEmpty then d.scopes else scopes,
             access_token := some na, resource := d.resource } ∧
    (exchange_refresh_token s client_id rt scopes now na nr).2 =
      .ok { access_token := na, token_type := "Bearer",
            expires_in := ACCESS_TOKEN_LIFETIME, refresh_token := nr,
            scope := if (if scopes.isEmpty then d.scopes else scopes).isEmpty then none
                     else some (String.intercalate " "
                       (if scopes.isEmpty then d.scopes else scopes)) } ∧
    (exchange_refresh_token s client_id rt scopes now na nr).1.journal =
      s.journal ++ [(exchange_refresh_token s client_id rt scopes now na nr).1.data] := by
  have hS : exchange_refresh_token s client_id rt scopes now na nr =
      (s.save { s.data with
          access_tokens := minsert (merase s.data.access_tokens a) na
            { notion_token := d.notion_token, client_id := client_id,
              scopes := if scopes.isEmpty then d.scopes else scopes,
              expires_at := some (now + ACCESS_TOKEN_LIFETIME),
              refresh_token := some nr, resource := d.resource }
          refresh_tokens := minsert (merase s.data.refresh_tokens rt.token) nr
            { notion_token := d.notion_token, client_id := client_id,
              scopes := if scopes.isEmpty then d.scopes else scopes,
              access_token := some na, resource := d.resource } },
       .ok { access_token := na, token_type := "Bearer",
             expires_in := ACCESS_TOKEN_LIFETIME, refresh_token := nr,
             scope := if (if scopes.isEmpty then d.scopes else scopes).isEmpty then none
                      else some (String.intercalate " "
                        (if scopes.isEmpty then d.scopes else scopes)) }) := by
    unfold exchange_refresh_token
    rw [hfind]
    dsimp only
    unfold TokenStore.rotate_tokens
    rw [ha]
    dsimp only
    rw [if_neg hane]
  rw [hS]
  refine ⟨?_, ?_, ?_, ?_, rfl, rfl⟩
  · intro n2
    rw [get_access_token_eq_none n2
      (by
        show mfind (minsert (merase s.data.access_tokens a) na _) a = none
        rw [mfind_minsert, if_neg hna, mfind_merase, if_pos rfl])]
  · show mfind (minsert (merase s.data.refresh_tokens rt.token) nr _) rt.token = none
    rw [mfind_minsert, if_neg hnr, mfind_merase, if_pos rfl]
  · rw [get_access_token_eq_live now
      (by
        show mfind (minsert (merase s.data.access_tokens a) na _) na = _
        rw [mfind_minsert, if_pos rfl])
      (by
        intro e he
        injection he with he
        subst he
        intro hcon
        omega)]
  · show mfind (minsert (merase s.data.refresh_tokens rt.token) nr _) nr = _
    rw [mfind_minsert, if_pos rfl]

def c1S : TokenStore :=
  ⟨{ emptyData with
      access_tokens := [("a0", ⟨"nt", "cid", ["s1"], some 90000, some "r0", none⟩)]
      refresh_tokens := [("r0", ⟨"nt", "cid", ["s1"], some "a0", none⟩)] }, []⟩

theorem c1_refresh_rotation_witness :
    TokenStore.get_refresh_token
      (exchange_refresh_token c1S "cid" ⟨"r0", "cid", ["s1"]⟩ [] 1000 "a1" "r1").1
      "r0" = none :=
  (c1_refresh_rotation c1S "cid" ⟨"r0", "cid", ["s1"]⟩
    ⟨"nt", "cid", ["s1"], some "a0", none⟩ "a0" [] 1000 "a1" "r1"
    (by decide) (by decide) (by decide) (by decide) (by decide)).2.1

/-- C2: an authorization code present and unexpired in the store is
exchangeable exactly once: the first `exchange_authorization_code` call
mints and persists an access/refresh pair bound to the code's upstream
token and deletes the code, and any second call presenting the same code
value fails with an `invalid_grant` `TokenError` (the lookup is
not-found). -/
theorem c2_code_single_use (s : TokenStore) (client_id : String)
    (ac : AuthorizationCode) (d : CodeRec) (now : Nat) (atk rtk : String)
    (hfind : mfind s.data.auth_codes ac.code = some d)
    (hexp : ¬ (d.expires_at.getD 0 < now)) :
    (exchange_authorization_code s client_id ac now atk rtk).2 =
      .ok { access_token := atk, token_type := "Bearer",
            expires_in := ACCESS_TOKEN_LIFETIME, refresh_token := rtk,
            scope := if d.scopes.isEmpty then none
                     else some (String.intercalate " " d.scopes) } ∧
    mfind (exchange_authorization_code s client_id ac now atk rtk).1.data.access_tokens
        atk =
      some { notion_token := d.notion_token, client_id := client_id, scopes := d.scopes,
             expires_at := some (now + ACCESS_TOKEN_LIFETIME),
             refresh_token := some rtk, resource := d.resource } ∧
    mfind (exchange_authorization_code s client_id ac now atk rtk).1.data.refresh_tokens
        rtk =
      some { notion_token := d.notion_token, client_id := client_id, scopes := d.scopes,
             access_token := some atk, resource := d.resource } ∧
    mfind (exchange_authorization_code s client_id ac now atk rtk).1.data.auth_codes
        ac.code = none ∧
    (∀ (cid2 : String) (ac2 : AuthorizationCode) (n2 : Nat) (atk2 rtk2 : String),
        ac2.code = ac.code →
        (exchange_authorization_code
          (exchange_authorization_code s client_id ac now atk rtk).1
          cid2 ac2 n2 atk2 rtk2).2 =
        .error { error := "invalid_grant",
                 error_description := "Authorization code not found" }) := by
  unfold exchange_authorization_code
  rw [get_auth_code_eq_live now hfind hexp]
  dsimp only [TokenStore.store_access_token, TokenStore.store_refresh_token,
    TokenStore.delete_auth_code, TokenStore.save]
  refine ⟨rfl, ?_, ?_, ?_, ?_⟩
  · rw [mfind_minsert, if_pos rfl]
  · rw [mfind_minsert, if_pos rfl]
  · rw [mfind_merase, if_pos rfl]
  · intro cid2 ac2 n2 atk2 rtk2 hcode
    rw [hcode]
    rw [get_auth_code_eq_none n2 (by rw [mfind_merase, if_pos rfl])]

def c2S : TokenStore :=
  ⟨{ emptyData with
      auth_codes :=
        [("pc", ⟨"nt", "cidA", "ch", "https://client.example/cb", true, ["s1"],
          none, some 1300⟩)] }, []⟩

def c2AC : AuthorizationCode :=
  ⟨"pc", "cidA", "ch", "https://client.example/cb", true, ["s1"], some 1300, none⟩

theorem c2_code_single_use_witness :
    (exchange_authorization_code
      (exchange_authorization_code c2S "cidA" c2AC 1000 "at1" "rt1").1
      "cidA" c2AC 1500 "at2" "rt2").2 =
    .error { error := "invalid_grant",
             error_description := "Authorization code not found" } :=
  (c2_code_single_use c2S "cidA" c2AC
    ⟨"nt", "cidA", "ch", "https://client.example/cb", true, ["s1"], none, some 1300⟩
    1000 "at1" "rt1" (by decide) (by decide)).2.2.2.2
    "cidA" c2AC 1500 "at2" "rt2" rfl

def c3S : TokenStore :=
  ⟨{ emptyData with
      auth_codes := [("c0", ⟨"nt", "A", "ch", "u", true, [], none, some 5⟩)] }, []⟩

/-- C3 counterexample: an *expired* authorization code stored under client
"A", looked up by client "B", does return `none`, but the lookup evicts the
record — the store changes, unlike a lookup of a nonexistent code — so the
claim's "no change to the store" fails as stated. -/
theorem c3_counterexample :
    mfind c3S.data.auth_codes "c0" = some ⟨"nt", "A", "ch", "u", true, [], none, some 5⟩ ∧
    ("A" : String) ≠ "B" ∧
    (load_authorization_code c3S "B" "c0" 10).2 = none ∧
    (load_authorization_code c3S "B" "c0" 10).1 ≠ c3S := by decide

/-- C3 (amended): for an *unexpired* authorization code stored under client
A and any presented client B ≠ A, `load_authorization_code` returns `none`
— exactly the not-found result — and leaves the store unchanged;
`load_refresh_token` does the same for refresh tokens unconditionally
(they carry no expiry).  An expired code is instead evicted by the lookup
(store mutation), as on any lookup, regardless of the presented client. -/
theorem c3_client_mismatch (s : TokenStore) (cidB c r : String)
    (crec : CodeRec) (rrec : RefreshRec) (now : Nat)
    (hc : mfind s.data.auth_codes c = some crec)
    (hcexp : ¬ (crec.expires_at.getD 0 < now))
    (hcne : crec.client_id ≠ cidB)
    (hr : mfind s.data.refresh_tokens r = some rrec)
    (hrne : rrec.client_id ≠ cidB) :
    load_authorization_code s cidB c now = (s, none) ∧
    load_refresh_token s cidB r = none := by
  constructor
  · unfold load_authorization_code
    rw [get_auth_code_eq_live now hc hcexp]
    dsimp only
    rw [if_pos hcne]
  · unfold load_refresh_token TokenStore.get_refresh_token
    rw [hr]
    dsimp only
    rw [if_pos hrne]

def c3S2 : TokenStore :=
  ⟨{ emptyData with
      auth_codes := [("c0", ⟨"nt", "A", "ch", "u", true, [], none, some 2000⟩)]
      refresh_tokens := [("r0", ⟨"nt", "A", [], some "a0", none⟩)] }, []⟩

theorem c3_client_mismatch_witness :
    load_authorization_code c3S2 "B" "c0" 10 = (c3S2, none) ∧
    load_refresh_token c3S2 "B" "r0" = none :=
  c3_client_mismatch c3S2 "B" "c0" "r0"
    ⟨"nt", "A", "ch", "u", true, [], none, some 2000⟩
    ⟨"nt", "A", [], some "a0", none⟩ 10
    (by decide) (by decide) (by decide) (by decide) (by decide)

def c5S : TokenStore :=
  ⟨{ emptyData with
      access_tokens := [("a0", ⟨"nt", "cid", [], some 0, some "r0", none⟩)] }, []⟩

/-- C5 counterexample: an access token with stored `expires_at = 0` — a
time strictly in the past at `now = 10` — is *returned*, not evicted:
`0` is falsy in the source's truthiness check, so the claim's "past expiry
returns None and removes the record" fails as stated. -/
theorem c5_counterexample :
    (0 : Nat) < 10 ∧
    mfind c5S.data.access_tokens "a0" = some ⟨"nt", "cid", [], some 0, some "r0", none⟩ ∧
    load_access_token c5S "a0" 10 = (c5S, some ⟨"a0", "cid", [], some 0, none⟩) := by
  decide

/-- C5 (amended): for an access token whose stored `expires_at` is strictly
in the future, `load_access_token` returns exactly the stored record's
fields (client_id, scopes, expires_at, resource) and leaves the store
unchanged; for a *nonzero* `expires_at` in the past it returns `none` and
removes the record as a side effect (a zero expiry is treated as
never-expiring by the source's truthiness check). -/
theorem c5_access_token_expiry (s : TokenStore) (tok : String) (d : AccessRec)
    (e now : Nat)
    (hfind : mfind s.data.access_tokens tok = some d)
    (hd : d.expires_at = some e) :
    (now < e →
      load_access_token s tok now =
        (s, some { token := tok, client_id := d.client_id, scopes := d.scopes,
                   expires_at := d.expires_at, resource := d.resource })) ∧
    (e ≠ 0 → e < now →
      (load_access_token s tok now).2 = none ∧
      mfind (load_access_token s tok now).1.data.access_tokens tok = none ∧
      (load_access_token s tok now).1.data.refresh_tokens = s.data.refresh_tokens) := by
  constructor
  · intro hlt
    unfold load_access_token
    rw [get_access_token_eq_live now hfind
      (by
        intro e2 he2
        rw [hd] at he2
        injection he2 with he2
        subst he2
        intro hcon
        omega)]
  · intro h0 hlt
    unfold load_access_token
    rw [get_access_token_eq_evict now hfind hd ⟨h0, hlt⟩]
    dsimp only [TokenStore.save]
    refine ⟨rfl, ?_, rfl⟩
    rw [mfind_merase, if_pos rfl]

def c5S2 : TokenStore :=
  ⟨{ emptyData with
      access_tokens := [("a0", ⟨"nt", "cid", ["s1"], some 100, some "r0", none⟩)] }, []⟩

theorem c5_access_token_expiry_witness :
    load_access_token c5S2 "a0" 10 =
      (c5S2, some ⟨"a0", "cid", ["s1"], some 100, none⟩) ∧
    (load_access_token c5S2 "a0" 200).2 = none :=
  ⟨(c5_access_token_expiry c5S2 "a0" ⟨"nt", "cid", ["s1"], some 100, some "r0", none⟩
      100 10 (by decide) (by decide)).1 (by decide),
   ((c5_access_token_expiry c5S2 "a0" ⟨"nt", "cid", ["s1"], some 100, some "r0", none⟩
      100 200 (by decide) (by decide)).2 (by decide) (by decide)).1⟩

/-- C6: for a mutually-linked access/refresh pair in the store,
`revoke_token` presented with the access token (run-time type dispatch on
the left summand) deletes both the access record and the refresh record it
names in one store operation (one persisted snapshot), and presented with
the refresh token it symmetrically deletes both. -/
theorem c6_revoke_pair (s : TokenStore) (a r : String) (arec : AccessRec)
    (rrec : RefreshRec) (aObj : AccessToken) (rObj : RefreshToken)
    (hfa : mfind s.data.access_tokens a = some arec)
    (hlink1 : arec.refresh_token = some r)
    (hfr : mfind s.data.refresh_tokens r = some rrec)
    (hlink2 : rrec.access_token = some a)
    (haObj : aObj.token = a) (hrObj : rObj.token = r) :
    (mfind (revoke_token s (.inl aObj)).data.access_tokens a = none ∧
     mfind (revoke_token s (.inl aObj)).data.refresh_tokens r = none ∧
     (revoke_token s (.inl aObj)).journal =
       s.journal ++ [(revoke_token s (.inl aObj)).data]) ∧
    (mfind (revoke_token s (.inr rObj)).data.access_tokens a = none ∧
     mfind (revoke_token s (.inr rObj)).data.refresh_tokens r = none ∧
     (revoke_token s (.inr rObj)).journal =
       s.journal ++ [(revoke_token s (.inr rObj)).data]) := by
  constructor
  · dsimp only [revoke_token]
    rw [haObj]
    unfold TokenStore.delete_tokens_for_access_token
    rw [hfa]
    dsimp only
    rw [hlink1]
    dsimp only [TokenStore.save]
    refine ⟨?_, ?_, rfl⟩
    · rw [mfind_merase, if_pos rfl]
    · rw [mfind_merase, if_pos rfl]
  · dsimp only [revoke_token]
    rw [hrObj]
    unfold TokenStore.delete_tokens_for_refresh_token
    rw [hfr]
    dsimp only
    rw [hlink2]
    dsimp only [TokenStore.save]
    refine ⟨?_, ?_, rfl⟩
    · rw [mfind_merase, if_pos rfl]
    · rw [mfind_merase, if_pos rfl]

def c6S : TokenStore :=
  ⟨{ emptyData with
      access_tokens := [("a6", ⟨"nt", "cid", ["s1"], some 90000, some "r6", none⟩)]
      refresh_tokens := [("r6", ⟨"nt", "cid", ["s1"], some "a6", none⟩)] }, []⟩

theorem c6_revoke_pair_witness :
    mfind (revoke_token c6S (.inl ⟨"a6", "cid", ["s1"], some 90000, none⟩)).data.access_tokens
      "a6" = none ∧
    mfind (revoke_token c6S (.inr ⟨"r6", "cid", ["s1"]⟩)).data.access_tokens "a6" = none :=
  ⟨(c6_revoke_pair c6S "a6" "r6" ⟨"nt", "cid", ["s1"], some 90000, some "r6", none⟩
      ⟨"nt", "cid", ["s1"], some "a6", none⟩ ⟨"a6", "cid", ["s1"], some 90000, none⟩
      ⟨"r6", "cid", ["s1"]⟩ (by decide) (by decide) (by decide) (by decide)
      (by decide) (by decide)).1.1,
   (c6_revoke_pair c6S "a6" "r6" ⟨"nt", "cid", ["s1"], some 90000, some "r6", none⟩
      ⟨"nt", "cid", ["s1"], some "a6", none⟩ ⟨"a6", "cid", ["s1"], some 90000, none⟩
      ⟨"r6", "cid", ["s1"]⟩ (by decide) (by decide) (by decide) (by decide)
      (by decide) (by decide)).2.1⟩

/-- C9: with a resolvable pending authorization, a non-2xx upstream
response makes `exchange_notion_code` raise an error carrying only the
constant generic message — independent of the upstream status, whose body
is logged server-side only — and leaves the store unchanged: the pending
record remains resolvable by the same state and no authorization code was
created. -/
theorem c9_upstream_failure (s : TokenStore) (c st : String) (p : PendingRec)
    (now status : Nat) (oc : String)
    (hfind : mfind s.data.pending_auth st = some p)
    (hexp : ¬ (p.expires_at.getD 0 < now)) :
    exchange_notion_code s c st now (.error status) oc =
      (s, .error "Failed to exchange authorization code with Notion") ∧
    (TokenStore.get_pending_auth s st now).2 = some p := by
  constructor
  · unfold exchange_notion_code
    rw [get_pending_auth_eq_live now hfind hexp]
  · rw [get_pending_auth_eq_live now hfind hexp]

def c9S : TokenStore :=
  ⟨{ emptyData with
      pending_auth :=
        [("ns", ⟨"cid", "https://client.example/cb", "ch", some "st", some ["s1"],
          true, none, some 1600⟩)] }, []⟩

theorem c9_upstream_failure_witness :
    exchange_notion_code c9S "nc" "ns" 1000 (.error 400) "pc" =
      (c9S, .error "Failed to exchange authorization code with Notion") :=
  (c9_upstream_failure c9S "nc" "ns"
    ⟨"cid", "https://client.example/cb", "ch", some "st", some ["s1"], true, none,
      some 1600⟩
    1000 400 "pc" (by decide) (by decide)).1

/-- C10: a pending-authorization or authorization-code record stored
without an `expires_at` field is treated as already expired — the very
next lookup (at any positive clock) returns `none` and evicts it — whereas
an access-token record whose `expires_at` is missing/`None` or zero never
expires: `get_access_token` returns it unchanged at every clock value. -/
theorem c10_missing_expiry (s : TokenStore) (st c tok : String)
    (prec : PendingRec) (crec : CodeRec) (arec : AccessRec) (now : Nat)
    (hp : mfind s.data.pending_auth st = some prec)
    (hpe : prec.expires_at = none)
    (hc : mfind s.data.auth_codes c = some crec)
    (hce : crec.expires_at = none)
    (ha : mfind s.data.access_tokens tok = some arec)
    (hae : arec.expires_at = none ∨ arec.expires_at = some 0)
    (hnow : 0 < now) :
    (TokenStore.get_pending_auth s st now).2 = none ∧
    mfind (TokenStore.get_pending_auth s st now).1.data.pending_auth st = none ∧
    (TokenStore.get_auth_code s c now).2 = none ∧
    mfind (TokenStore.get_auth_code s c now).1.data.auth_codes c = none ∧
    (∀ n2, TokenStore.get_access_token s tok n2 = (s, some arec)) := by
  have hpexp : prec.expires_at.getD 0 < now := by rw [hpe]; exact hnow
  have hcexp : crec.expires_at.getD 0 < now := by rw [hce]; exact hnow
  rw [get_pending_auth_eq_evict now hp hpexp, get_auth_code_eq_evict now hc hcexp]
  dsimp only [TokenStore.save]
  refine ⟨rfl, ?_, rfl, ?_, ?_⟩
  · rw [mfind_merase, if_pos rfl]
  · rw [mfind_merase, if_pos rfl]
  · intro n2
    cases hae with
    | inl h =>
      exact get_access_token_eq_live n2 ha (by intro e he; rw [h] at he; cases he)
    | inr h =>
      refine get_access_token_eq_live n2 ha ?_
      intro e he
      rw [h] at he
      injection he with he
      intro hcon
      exact hcon.1 he.symm

def c10S : TokenStore :=
  ⟨{ emptyData with
      pending_auth := [("p10", ⟨"cid", "u", "ch", none, none, true, none, none⟩)]
      auth_codes := [("c10", ⟨"nt", "cid", "ch", "u", true, [], none, none⟩)]
      access_tokens := [("a10", ⟨"nt", "cid", [], some 0, some "r10", none⟩)] }, []⟩

theorem c10_missing_expiry_witness :
    (TokenStore.get_pending_auth c10S "p10" 7).2 = none ∧
    TokenStore.get_access_token c10S "a10" 999999 =
      (c10S, some ⟨"nt", "cid", [], some 0, some "r10", none⟩) :=
  ⟨(c10_missing_expiry c10S "p10" "c10" "a10"
      ⟨"cid", "u", "ch", none, none, true, none, none⟩
      ⟨"nt", "cid", "ch", "u", true, [], none, none⟩
      ⟨"nt", "cid", [], some 0, some "r10", none⟩ 7
      (by decide) (by decide) (by decide) (by decide) (by decide)
      (Or.inr (by decide)) (by decide)).1,
   (c10_missing_expiry c10S "p10" "c10" "a10"
      ⟨"cid", "u", "ch", none, none, true, none, none⟩
      ⟨"nt", "cid", "ch", "u", true, [], none, none⟩
      ⟨"nt", "cid", [], some 0, some "r10", none⟩ 7
      (by decide) (by decide) (by decide) (by decide) (by decide)
      (Or.inr (by decide)) (by decide)).2.2.2.2 999999⟩

/-- C7: `_save` persists by writing the encrypted snapshot to a temporary
file, fsyncing, closing and atomically renaming it over the live file; at
every intermediate filesystem state the live file holds either the old or
the complete new snapshot (never a partial write), a failure at any
primitive propagates as an exception (never a silent false success) and
leaves the previously persisted file intact, and only full success
installs the new snapshot. -/
theorem c7_crash_safe_save (old : Option (List Nat)) (encrypted : List Nat)
    (failAt : Option SaveStep) (nWritten : Nat) :
    ((runSave old encrypted failAt nWritten).1 = .ok →
      (runSave old encrypted failAt nWritten).2.live = some encrypted) ∧
    ((runSave old encrypted failAt nWritten).1 = .err →
      (runSave old encrypted failAt nWritten).2.live = old) ∧
    (failAt.isSome → (runSave old encrypted failAt nWritten).1 = .err) ∧
    (failAt = none → (runSave old encrypted failAt nWritten).1 = .ok) ∧
    ((runSave old encrypted failAt nWritten).2.live = old ∨
      (runSave old encrypted failAt nWritten).2.live = some encrypted) ∧
    (∀ d ∈ saveStates old encrypted nWritten, d.live = old ∨ d.live = some encrypted) := by
  refine ⟨?_, ?_, ?_, ?_, ?_, ?_⟩
  all_goals
    first
    | (cases failAt with
       | none => simp [runSave, fsReplace, fsClose, fsFsync, fsWrite, fsMkstemp]
       | some step =>
         cases step <;>
           simp [runSave, fsUnlink, fsWritePart, fsWrite, fsFsync, fsClose, fsMkstemp])
    | (intro d hd
       simp only [saveStates, List.mem_cons, List.not_mem_nil, or_false] at hd
       rcases hd with h | h | h | h | h | h <;>
         (subst h
          simp [fsMkstemp, fsWritePart, fsWrite, fsFsync, fsClose, fsReplace]))

theorem c7_crash_safe_save_witness :
    (runSave (some [1, 2]) [3, 4, 5] (some .replace) 1).2.live = some [1, 2] :=
  (c7_crash_safe_save (some [1, 2]) [3, 4, 5] (some .replace) 1).2.1 (by decide)

def c4Trace : List Step :=
  [.sAuthorize "ncid" "https://proxy.example" "cid" "https://client.example/cb" "ch"
      (some "st") (some ["s1"]) true none 1000 "ns",
   .sNotionCode "nc" "ns" 1000 (.ok "ntok") "pc",
   .sExchangeAuthCode "cid"
      ⟨"pc", "cid", "ch", "https://client.example/cb", true, ["s1"], some 1300, none⟩
      1000 "at1" "rt1"]

def c4CexTrace : List Step := c4Trace ++ [.sLoadAccessToken "at1" 100000]

/-- C4 counterexample: from the empty store, a full authorization flow
followed by a `load_access_token` after the access token's expiry evicts
only the access record — its paired refresh token survives, pointing at a
deleted access token — so the bidirectional pairing invariant fails after
that lookup. -/
theorem c4_counterexample :
    okTraceB emptyStore c4CexTrace = true ∧
    ¬ PairedInvariantSpec (runTrace emptyStore c4CexTrace).data.access_tokens
        (runTrace emptyStore c4CexTrace).data.refresh_tokens := by
  constructor
  · decide
  · intro hinv
    obtain ⟨a, ha, arec, hfind, hback⟩ :=
      hinv.2 "rt1" ⟨"ntok", "cid", ["s1"], some "at1", none⟩ (by decide)
    injection ha with ha
    subst ha
    have hnone : mfind (runTrace emptyStore c4CexTrace).data.access_tokens "at1" = none := by
      decide
    rw [hnone] at hfind
    cases hfind

/-- C4 (amended): starting from the empty store, after every operation —
code exchange, refresh rotation, revocation, and every lookup with lazy
expiry eviction, with freshly generated, non-empty token values — the
one-directional pairing invariant holds: every access-token record names
exactly one refresh-token record that exists and names it back, and every
refresh-token record names exactly one access-token value whose record,
*when still present*, names it back.  The reverse existence direction
fails: expiry eviction removes only the access record, orphaning its
refresh token. -/
theorem c4_pairing_invariant (tr : List Step) (h : okTraceB emptyStore tr = true) :
    InvAR (runTrace emptyStore tr).data.access_tokens
      (runTrace emptyStore tr).data.refresh_tokens := by
  refine (okTrace_Inv tr emptyStore ⟨?_, ?_⟩ ⟨?_, ?_⟩ h).1
  · intro a arec hfind
    simp [emptyStore, emptyData, mfind] at hfind
  · intro r rrec hfind
    simp [emptyStore, emptyData, mfind] at hfind
  · intro p hp
    simp [emptyStore, emptyData] at hp
  · intro p hp
    simp [emptyStore, emptyData] at hp

theorem c4_pairing_invariant_witness :
    okTraceB emptyStore c4Trace = true ∧
    InvAR (runTrace emptyStore c4Trace).data.access_tokens
      (runTrace emptyStore c4Trace).data.refresh_tokens :=
  ⟨by decide, c4_pairing_invariant c4Trace (by decide)⟩

instance exceptDecEq {ε α : Type} [DecidableEq ε] [DecidableEq α] :
    DecidableEq (Except ε α) := fun x y =>
  match x, y with
  | .ok a, .ok b =>
    if h : a = b then .isTrue (by rw [h])
    else .isFalse (fun hc => h (by injection hc))
  | .error a, .error b =>
    if h : a = b then .isTrue (by rw [h])
    else .isFalse (fun hc => h (by injection hc))
  | .ok _, .error _ => .isFalse (fun hc => by injection hc)
  | .error _, .ok _ => .isFalse (fun hc => by injection hc)

/-- The redirect URL as the spec words it: the downstream state parameter
is included if and only if one was supplied. -/
def specRedirectUrl (pending : PendingRec) (our_code : String) : String :=
  let redirect_params :=
    [("code", our_code)] ++
      (match pending.state with
       | some stv => [("state", stv)]
       | none => [])
  let separator := if pending.redirect_uri.data.contains '?' then "&" else "?"
  pending.redirect_uri ++ separator ++ urlencode redirect_params

def c8Pending : PendingRec :=
  ⟨"cid", "https://client.example/cb", "ch", some "", some ["s1"], true, none, some 1600⟩

def c8S : TokenStore := ⟨{ emptyData with pending_auth := [("ns", c8Pending)] }, []⟩

/-- C8 counterexample: a supplied-but-empty downstream state (`some ""`,
falsy under the source's truthiness test) is dropped from the redirect, so
"state included if and only if one was supplied" fails as stated. -/
theorem c8_counterexample :
    c8Pending.state = some "" ∧
    (exchange_notion_code c8S "nc" "ns" 1000 (.ok "ntok") "pc").2 =
      .ok "https://client.example/cb?code=pc" ∧
    specRedirectUrl c8Pending "pc" = "https://client.example/cb?code=pc&state=" ∧
    (exchange_notion_code c8S "nc" "ns" 1000 (.ok "ntok") "pc").2 ≠
      .ok (specRedirectUrl c8Pending "pc") := by
  decide

/-- C8 (amended): for a resolvable pending authorization and a successful
upstream exchange, `exchange_notion_code` stores a fresh authorization
code bound to the upstream access token and the pending record's
client_id, code_challenge, redirect_uri, scopes and resource with the
short code expiry, deletes the pending authorization, and returns a
redirect URL built on the pending redirect_uri carrying the new code —
with the original downstream state parameter included iff a *non-empty*
one was supplied (an empty string is falsy in the source and dropped). -/
theorem c8_notion_code_exchange (s : TokenStore) (c st : String) (p : PendingRec)
    (now : Nat) (ntok oc : String)
    (hfind : mfind s.data.pending_auth st = some p)
    (hexp : ¬ (p.expires_at.getD 0 < now)) :
    (exchange_notion_code s c st now (.ok ntok) oc).2 =
      .ok (p.redirect_uri ++ (if p.redirect_uri.data.contains '?' then "&" else "?") ++
        urlencode ([("code", oc)] ++
          (if strTruthy p.state then [("state", p.state.getD "")] else []))) ∧
    mfind (exchange_notion_code s c st now (.ok ntok) oc).1.data.auth_codes oc =
      some { notion_token := ntok, client_id := p.client_id,
             code_challenge := p.code_challenge, redirect_uri := p.redirect_uri,
             redirect_uri_provided_explicitly := p.redirect_uri_provided_explicitly,
             scopes := p.scopes.getD [], resource := p.resource,
             expires_at := some (now + AUTH_CODE_LIFETIME) } ∧
    mfind (exchange_notion_code s c st now (.ok ntok) oc).1.data.pending_auth st =
      none := by
  unfold exchange_notion_code
  rw [get_pending_auth_eq_live now hfind hexp]
  dsimp only [TokenStore.store_auth_code, TokenStore.delete_pending_auth, TokenStore.save]
  refine ⟨rfl, ?_, ?_⟩
  · rw [mfind_minsert, if_pos rfl]
  · rw [mfind_merase, if_pos rfl]

def c8S2 : TokenStore :=
  ⟨{ emptyData with
      pending_auth :=
        [("ns", ⟨"cid", "https://client.example/cb", "ch", some "xyz", some ["s1"],
          true, none, some 1600⟩)] }, []⟩

theorem c8_notion_code_exchange_witness :
    (exchange_notion_code c8S2 "nc" "ns" 1000 (.ok "ntok") "pc").2 =
      .ok "https://client.example/cb?code=pc&state=xyz" ∧
    mfind (exchange_notion_code c8S2 "nc" "ns" 1000 (.ok "ntok") "pc").1.data.pending_auth
      "ns" = none := by
  have h := c8_notion_code_exchange c8S2 "nc" "ns"
    ⟨"cid", "https://client.example/cb", "ch", some "xyz", some ["s1"], true, none,
      some 1600⟩
    1000 "ntok" "pc" (by decide) (by decide)
  refine ⟨?_, h.2.2⟩
  rw [h.1]
  rfl

end NotionMcp
